import Mathlib

/-!
Shallow embedding of the core logic of the `preworkd` dashboard
(job-id resolver, bounded result cache, domain search, domain extraction,
browse-history load, and the proxy API route), with theorems checking the
specification's claims against it.

Strings are modelled as `List Char`; the JavaScript string operations used
by the source (`trim`, `split`, `slice`, `toLowerCase`, `toUpperCase`,
`includes`, `startsWith`, `replace` of a literal) are embedded as
executable functions on `List Char`.
-/

namespace Preworkd

/-- JavaScript whitespace (the ASCII part used by `String.prototype.trim`). -/
def jsWhitespace (c : Char) : Bool :=
  c = ' ' || c = '\t' || c = '\n' || c = '\r' || c = '\x0b' || c = '\x0c'

/-- Hexadecimal digit, both cases, as in the source's UUID regex class `[0-9a-f]` with the `i` flag. -/
def isHexDigit (c : Char) : Bool :=
  ('0' ≤ c && c ≤ '9') || ('a' ≤ c && c ≤ 'f') || ('A' ≤ c && c ≤ 'F')

/-- ASCII lower-casing, as `String.prototype.toLowerCase` acts on ASCII. -/
def lowerChar (c : Char) : Char :=
  if 'A' ≤ c && c ≤ 'Z' then Char.ofNat (c.toNat + 32) else c

/-- ASCII upper-casing, as `String.prototype.toUpperCase` acts on ASCII. -/
def upperChar (c : Char) : Char :=
  if 'a' ≤ c && c ≤ 'z' then Char.ofNat (c.toNat - 32) else c

/-- ASCII letter. -/
def isAsciiAlpha (c : Char) : Bool :=
  ('a' ≤ c && c ≤ 'z') || ('A' ≤ c && c ≤ 'Z')

/-- `String.prototype.trim`: drop whitespace at both ends. -/
def trimL (s : List Char) : List Char :=
  ((s.dropWhile jsWhitespace).reverse.dropWhile jsWhitespace).reverse

/-- `String.prototype.split(sep)` for a one-character separator: always
returns a non-empty list of (possibly empty) segments. -/
def splitOnChar (sep : Char) : List Char → List (List Char)
  | [] => [[]]
  | c :: rest =>
    if c = sep then [] :: splitOnChar sep rest
    else
      match splitOnChar sep rest with
      | [] => [[c]]
      | g :: gs => (c :: g) :: gs

/-- `String.prototype.startsWith`. -/
def startsWithL : List Char → List Char → Bool
  | [], _ => true
  | _ :: _, [] => false
  | p :: ps, c :: cs => p = c && startsWithL ps cs

/-- `String.prototype.includes`: `pat` occurs as a contiguous substring of `s`. -/
def containsSub (s pat : List Char) : Bool :=
  if startsWithL pat s then true
  else
    match s with
    | [] => false
    | _ :: rest => containsSub rest pat

/-- `String.prototype.replace(pat, "")` for a literal pattern: remove the
first occurrence of `pat`, if any. -/
def stripFirst (pat : List Char) : List Char → List Char
  | [] => []
  | c :: rest =>
    if startsWithL pat (c :: rest) then (c :: rest).drop pat.length
    else c :: stripFirst pat rest

/-- The source's anchored UUID regex
`/^[0-9a-f]{8}-[0-9a-f]{4}-[0-9a-f]{4}-[0-9a-f]{4}-[0-9a-f]{12}$/i`:
splitting on `-` must give groups of lengths 8,4,4,4,12 and every
character must be a hex digit or the dash itself. -/
def uuidTest (s : List Char) : Bool :=
  ((splitOnChar '-' s).map List.length == [8, 4, 4, 4, 12]) &&
    s.all (fun c => isHexDigit c || c == '-')

/-- `extractJobId` from the dashboard source: trim; accept a bare UUID
as-is; otherwise split on `/`, take the literal last segment and accept it
if it is a UUID; otherwise fail (`throw new Error(...)` becomes `none`). -/
def extractJobId (input : List Char) : Option (List Char) :=
  let trimmedInput := trimL input
  if uuidTest trimmedInput then
    some trimmedInput
  else
    let parts := splitOnChar '/' trimmedInput
    let lastPart := parts.getLastD []
    if uuidTest lastPart then some lastPart else none

/-- `CachedJob` from the dashboard source; the opaque validation payload is
a type parameter. -/
structure CachedJob (π : Type) where
  id : List Char
  data : π
  timestamp : List Char
  domain : List Char
  deriving DecidableEq, Repr

/-- `MAX_CACHE_SIZE` from the dashboard source. -/
def MAX_CACHE_SIZE : Nat := 5

/-- `addToCache` from the dashboard source, with the stored snapshot made
explicit state and the clock (`new Date().toISOString()`) a parameter:
filter out any entry with the same id, prepend the new entry, and
`slice(0, MAX_CACHE_SIZE)`. -/
def addToCache {π : Type} (cachedJobs : List (CachedJob π)) (jobId : List Char)
    (data : π) (now : List Char) (domain : List Char) : List (CachedJob π) :=
  let newJob : CachedJob π := ⟨jobId, data, now, domain⟩
  let filteredJobs := cachedJobs.filter (fun job => job.id ≠ jobId)
  (newJob :: filteredJobs).take MAX_CACHE_SIZE

/-- `removeFromCache` from the dashboard source. -/
def removeFromCache {π : Type} (cachedJobs : List (CachedJob π)) (jobId : List Char) :
    List (CachedJob π) :=
  cachedJobs.filter (fun job => job.id ≠ jobId)

/-- `clearCache` from the dashboard source: the snapshot key is removed, so
the resulting cache state is empty. -/
def clearCache {π : Type} (_cachedJobs : List (CachedJob π)) : List (CachedJob π) := []

/-- The cache invariant stated by the spec: no two entries share a jobId,
and the length never exceeds the bound. -/
def cacheInv {π : Type} (c : List (CachedJob π)) : Prop :=
  (c.map CachedJob.id).Nodup ∧ c.length ≤ MAX_CACHE_SIZE

theorem addToCache_nodup {π : Type} (c : List (CachedJob π)) (jobId : List Char)
    (d : π) (now domain : List Char) (h : (c.map CachedJob.id).Nodup) :
    ((addToCache c jobId d now domain).map CachedJob.id).Nodup := by
  have hsub :
      List.Sublist ((addToCache c jobId d now domain).map CachedJob.id)
        (((⟨jobId, d, now, domain⟩ : CachedJob π) ::
          c.filter (fun job => job.id ≠ jobId)).map CachedJob.id) :=
    List.Sublist.map _ (List.take_sublist _ _)
  refine hsub.nodup ?_
  rw [List.map_cons, List.nodup_cons]
  constructor
  · intro hmem
    rcases List.mem_map.mp hmem with ⟨j, hj, hid⟩
    have := (List.mem_filter.mp hj).2
    simp only [decide_eq_true_eq] at this
    exact this hid
  · exact ((List.filter_sublist c).map CachedJob.id).nodup h

theorem addToCache_length_le {π : Type} (c : List (CachedJob π)) (jobId : List Char)
    (d : π) (now domain : List Char) :
    (addToCache c jobId d now domain).length ≤ MAX_CACHE_SIZE := by
  unfold addToCache
  rw [List.length_take]
  exact min_le_left _ _

theorem removeFromCache_inv {π : Type} (c : List (CachedJob π)) (jobId : List Char)
    (h : cacheInv c) : cacheInv (removeFromCache c jobId) := by
  refine ⟨((List.filter_sublist c).map CachedJob.id).nodup h.1, ?_⟩
  exact le_trans (List.length_filter_le _ c) h.2

/-- C2: every cache mutation (insert, remove, clear) preserves the cache
invariant: no two entries share a jobId and the length stays at most 5. -/
theorem c2_mutations_preserve_invariant {π : Type} (c : List (CachedJob π))
    (jobId : List Char) (d : π) (now domain : List Char) (h : cacheInv c) :
    cacheInv (addToCache c jobId d now domain) ∧
      cacheInv (removeFromCache c jobId) ∧ cacheInv (clearCache c) :=
  ⟨⟨addToCache_nodup c jobId d now domain h.1, addToCache_length_le c jobId d now domain⟩,
    removeFromCache_inv c jobId h,
    List.nodup_nil, by simp [clearCache, MAX_CACHE_SIZE]⟩

/-- Witness for C2 at a concrete one-entry cache. -/
theorem c2_mutations_preserve_invariant_witness :
    cacheInv (addToCache [(⟨"x".toList, (), [], []⟩ : CachedJob Unit)] "a".toList () [] []) ∧
      cacheInv (removeFromCache [(⟨"x".toList, (), [], []⟩ : CachedJob Unit)] "a".toList) ∧
      cacheInv (clearCache [(⟨"x".toList, (), [], []⟩ : CachedJob Unit)]) :=
  c2_mutations_preserve_invariant _ _ () [] [] ⟨by decide, by decide⟩

/-- Counting lemma behind C3: under the no-duplicate-ids invariant,
removing the entries whose id equals a present id `j` shortens the list by
exactly one. -/
theorem length_filter_ne_of_mem {π : Type} (c : List (CachedJob π)) (j : List Char)
    (hnd : (c.map CachedJob.id).Nodup) (hmem : j ∈ c.map CachedJob.id) :
    (c.filter (fun e => e.id ≠ j)).length + 1 = c.length := by
  induction c with
  | nil => simp at hmem
  | cons a t ih =>
    rw [List.map_cons, List.nodup_cons] at hnd
    rcases (by simpa using hmem : j = a.id ∨ ∃ e ∈ t, e.id = j) with h | ⟨e, he, hej⟩
    · subst h
      have ht : t.filter (fun x => x.id ≠ a.id) = t := by
        refine List.filter_eq_self.mpr ?_
        intro x hx
        simp only [decide_eq_true_eq]
        intro hxj
        exact hnd.1 (hxj ▸ List.mem_map_of_mem CachedJob.id hx)
      rw [List.filter_cons, if_neg (by simp), ht]
      simp
    · have hmt : j ∈ t.map CachedJob.id := hej ▸ List.mem_map_of_mem CachedJob.id he
      have haj : a.id ≠ j := fun hc => hnd.1 (hc ▸ hmt)
      have hrec := ih hnd.2 hmt
      rw [List.filter_cons, if_pos (by simp [haj])]
      simp only [List.length_cons]
      omega

/-- C3: inserting an entry whose jobId is already present puts the new
entry at the front and leaves the cache length unchanged. -/
theorem c3_reinsert_moves_to_front {π : Type} (c : List (CachedJob π))
    (jobId : List Char) (d : π) (now domain : List Char)
    (hmem : jobId ∈ c.map CachedJob.id) (hinv : cacheInv c) :
    (addToCache c jobId d now domain).head? =
        some (⟨jobId, d, now, domain⟩ : CachedJob π) ∧
      (addToCache c jobId d now domain).length = c.length := by
  have hlen : (c.filter (fun e => e.id ≠ jobId)).length + 1 = c.length :=
    length_filter_ne_of_mem c jobId hinv.1 hmem
  have hfull :
      addToCache c jobId d now domain =
        (⟨jobId, d, now, domain⟩ : CachedJob π) :: c.filter (fun e => e.id ≠ jobId) := by
    unfold addToCache
    refine List.take_of_length_le ?_
    rw [List.length_cons, hlen]
    exact hinv.2
  rw [hfull]
  exact ⟨rfl, by rw [List.length_cons, hlen]⟩

/-- Witness for C3 at a concrete two-entry cache containing the re-inserted id. -/
theorem c3_reinsert_moves_to_front_witness :
    (addToCache [(⟨"a".toList, 0, [], []⟩ : CachedJob Nat), ⟨"b".toList, 1, [], []⟩]
          "b".toList 2 [] []).head? = some ⟨"b".toList, 2, [], []⟩ ∧
      (addToCache [(⟨"a".toList, 0, [], []⟩ : CachedJob Nat), ⟨"b".toList, 1, [], []⟩]
          "b".toList 2 [] []).length = 2 :=
  c3_reinsert_moves_to_front _ "b".toList 2 [] [] (by decide) ⟨by decide, by decide⟩

/-- C1: starting from the empty cache, inserting six entries with distinct
jobIds J1..J6 leaves exactly J6,J5,J4,J3,J2 (most-recent first); J1 is
evicted by the bound of 5. -/
theorem c1_six_inserts_evict_oldest :
    (List.foldl (fun (c : List (CachedJob Unit)) (i : List Char) => addToCache c i () [] [])
        []
        ["J1".toList, "J2".toList, "J3".toList, "J4".toList, "J5".toList, "J6".toList]).map
          CachedJob.id =
      ["J6".toList, "J5".toList, "J4".toList, "J3".toList, "J2".toList] := by
  decide

theorem uuidTest_chars {s : List Char} (h : uuidTest s = true) :
    ∀ c ∈ s, isHexDigit c = true ∨ c = '-' := by
  unfold uuidTest at h
  rcases Bool.and_eq_true_iff.mp h with ⟨_, hall⟩
  intro c hc
  have := List.all_eq_true.mp hall c hc
  rcases Bool.or_eq_true_iff.mp this with h1 | h2
  · exact Or.inl h1
  · exact Or.inr (by simpa using h2)

theorem hex_not_ws {c : Char} (h : isHexDigit c = true) : jsWhitespace c = false := by
  unfold isHexDigit at h
  unfold jsWhitespace
  rcases Bool.or_eq_true_iff.mp h with h' | h2
  · rcases Bool.or_eq_true_iff.mp h' with h0 | h1
    · rcases Bool.and_eq_true_iff.mp h0 with ⟨hl, hr⟩
      simp only [decide_eq_true_eq] at hl hr
      simp only [Bool.or_eq_false_iff, decide_eq_false_iff_not]
      refine ⟨⟨⟨⟨⟨?_, ?_⟩, ?_⟩, ?_⟩, ?_⟩, ?_⟩ <;> rintro rfl <;> simp_all
    · rcases Bool.and_eq_true_iff.mp h1 with ⟨hl, hr⟩
      simp only [decide_eq_true_eq] at hl hr
      simp only [Bool.or_eq_false_iff, decide_eq_false_iff_not]
      refine ⟨⟨⟨⟨⟨?_, ?_⟩, ?_⟩, ?_⟩, ?_⟩, ?_⟩ <;> rintro rfl <;> simp_all
  · rcases Bool.and_eq_true_iff.mp h2 with ⟨hl, hr⟩
    simp only [decide_eq_true_eq] at hl hr
    simp only [Bool.or_eq_false_iff, decide_eq_false_iff_not]
    refine ⟨⟨⟨⟨⟨?_, ?_⟩, ?_⟩, ?_⟩, ?_⟩, ?_⟩ <;> rintro rfl <;> simp_all

theorem dropWhile_eq_self_of_all_false {p : Char → Bool} {l : List Char}
    (h : ∀ c ∈ l, p c = false) : l.dropWhile p = l := by
  cases l with
  | nil => rfl
  | cons a t =>
    rw [List.dropWhile_cons, if_neg]
    simp [h a (List.mem_cons_self a t)]

theorem trimL_eq_self {s : List Char} (h : ∀ c ∈ s, jsWhitespace c = false) :
    trimL s = s := by
  unfold trimL
  rw [dropWhile_eq_self_of_all_false h,
    dropWhile_eq_self_of_all_false (fun c hc => h c (List.mem_reverse.mp hc)),
    List.reverse_reverse]

theorem uuidTest_no_ws {s : List Char} (h : uuidTest s = true) :
    ∀ c ∈ s, jsWhitespace c = false := by
  intro c hc
  rcases uuidTest_chars h c hc with hx | rfl
  · exact hex_not_ws hx
  · decide

/-- A string accepted by the UUID regex is untouched by `trim`. -/
theorem trimL_of_uuidTest {s : List Char} (h : uuidTest s = true) : trimL s = s :=
  trimL_eq_self (uuidTest_no_ws h)

/-- A bare canonical UUID is returned unchanged (first branch of `extractJobId`). -/
theorem extractJobId_of_uuidTest {s : List Char} (h : uuidTest s = true) :
    extractJobId s = some s := by
  unfold extractJobId
  rw [trimL_of_uuidTest h, if_pos h]

/-- Whatever `extractJobId` returns passes the UUID regex. -/
theorem uuidTest_of_extractJobId {x j : List Char} (h : extractJobId x = some j) :
    uuidTest j = true := by
  unfold extractJobId at h
  by_cases h1 : uuidTest (trimL x) = true
  · rw [if_pos h1] at h
    exact (Option.some_inj.mp h) ▸ h1
  · rw [if_neg h1] at h
    by_cases h2 : uuidTest ((splitOnChar '/' (trimL x)).getLastD []) = true
    · rw [if_pos h2] at h
      exact (Option.some_inj.mp h) ▸ h2
    · rw [if_neg h2] at h
      exact absurd h (by simp)

/-- C10: the resolver is idempotent on its successes: an extracted job id
is itself resolved to itself. -/
theorem c10_extractJobId_idempotent {x j : List Char} (h : extractJobId x = some j) :
    extractJobId j = some j :=
  extractJobId_of_uuidTest (uuidTest_of_extractJobId h)

/-- Witness for C10 at a concrete URL input. -/
theorem c10_extractJobId_idempotent_witness :
    extractJobId "123e4567-e89b-12d3-a456-426614174000".toList =
      some "123e4567-e89b-12d3-a456-426614174000".toList :=
  c10_extractJobId_idempotent
    (x := "https://app.reworkd.ai/jobs/123e4567-e89b-12d3-a456-426614174000".toList)
    (by decide)

/-- Counterexample to C4: an all-uppercase canonical UUID is accepted but
returned as-is, so resolving it and resolving its lowercase form give
different job ids. -/
theorem c4_counterexample :
    uuidTest "AAAAAAAA-AAAA-AAAA-AAAA-AAAAAAAAAAAA".toList = true ∧
      extractJobId "AAAAAAAA-AAAA-AAAA-AAAA-AAAAAAAAAAAA".toList ≠
        extractJobId ("AAAAAAAA-AAAA-AAAA-AAAA-AAAAAAAAAAAA".toList.map lowerChar) := by
  decide

/-- C4 (amended): the resolver does not normalize case; it returns a
canonical UUID input unchanged, preserving the letter case it was given,
so differently-cased inputs yield different cache keys. -/
theorem c4_resolver_preserves_case (u : List Char) (h : uuidTest u = true) :
    extractJobId u = some u :=
  extractJobId_of_uuidTest h

/-- Witness for the amended C4 at a mixed-case UUID. -/
theorem c4_resolver_preserves_case_witness :
    extractJobId "123E4567-e89b-12D3-a456-426614174000".toList =
      some "123E4567-e89b-12D3-a456-426614174000".toList :=
  c4_resolver_preserves_case _ (by decide)

theorem splitOnChar_ne_nil (sep : Char) (l : List Char) : splitOnChar sep l ≠ [] := by
  cases l with
  | nil => simp [splitOnChar]
  | cons c rest =>
    unfold splitOnChar
    by_cases hc : c = sep
    · simp [hc]
    · rw [if_neg hc]
      rcases hm : splitOnChar sep rest with _ | ⟨g, gs⟩ <;> simp

theorem splitOnChar_cons_self (sep : Char) (rest : List Char) :
    splitOnChar sep (sep :: rest) = [] :: splitOnChar sep rest := by
  simp only [splitOnChar]
  simp

theorem splitOnChar_cons_ne (sep c : Char) (rest : List Char) (hc : c ≠ sep) :
    splitOnChar sep (c :: rest) =
      (c :: (splitOnChar sep rest).headD []) :: (splitOnChar sep rest).tail := by
  simp only [splitOnChar]
  rw [if_neg hc]
  rcases hm : splitOnChar sep rest with _ | ⟨g, gs⟩
  · exact absurd hm (splitOnChar_ne_nil sep rest)
  · rfl

theorem splitOnChar_append (sep : Char) (xs ys : List Char) :
    splitOnChar sep (xs ++ sep :: ys) = splitOnChar sep xs ++ splitOnChar sep ys := by
  induction xs with
  | nil => simp [splitOnChar]
  | cons c rest ih =>
    rw [List.cons_append]
    by_cases hc : c = sep
    · subst hc
      rw [splitOnChar_cons_self, splitOnChar_cons_self, ih, List.cons_append]
    · rw [splitOnChar_cons_ne sep c _ hc, splitOnChar_cons_ne sep c rest hc, ih]
      rcases hm : splitOnChar sep rest with _ | ⟨g, gs⟩
      · exact absurd hm (splitOnChar_ne_nil sep rest)
      · simp [hm]

theorem splitOnChar_of_not_mem (sep : Char) (l : List Char) (h : sep ∉ l) :
    splitOnChar sep l = [l] := by
  induction l with
  | nil => rfl
  | cons c rest ih =>
    have hc : c ≠ sep := by
      intro hce
      exact h (by rw [← hce]; exact List.mem_cons_self c rest)
    rw [splitOnChar_cons_ne sep c rest hc, ih (fun hm => h (List.mem_cons_of_mem c hm))]
    rfl

theorem uuidTest_no_slash {u : List Char} (h : uuidTest u = true) : '/' ∉ u := by
  intro hm
  rcases uuidTest_chars h '/' hm with hx | hd
  · exact absurd hx (by decide)
  · exact absurd hd (by decide)

theorem uuidTest_false_of_slash_mem {s : List Char} (h : '/' ∈ s) :
    uuidTest s = false := by
  by_contra hc
  have := uuidTest_chars (Bool.of_not_eq_false hc) '/' h
  rcases this with hx | hd
  · exact absurd hx (by decide)
  · exact absurd hd (by decide)

theorem getLastD_append_of_ne_nil {α : Type} (l₁ : List α) {l₂ : List α}
    (h : l₂ ≠ []) (d : α) : (l₁ ++ l₂).getLastD d = l₂.getLastD d := by
  rcases List.eq_nil_or_concat l₂ with rfl | ⟨init, last, rfl⟩
  · exact absurd rfl h
  · rw [List.concat_eq_append, ← List.append_assoc, List.getLastD_concat,
      List.getLastD_concat]

/-- Counterexample to C5: a URL ending in a slash after a canonical UUID
resolves to nothing, while the bare UUID resolves to itself. -/
theorem c5_counterexample :
    extractJobId "https://app.reworkd.ai/123e4567-e89b-12d3-a456-426614174000/".toList ≠
      extractJobId "123e4567-e89b-12d3-a456-426614174000".toList ∧
      extractJobId "https://app.reworkd.ai/123e4567-e89b-12d3-a456-426614174000/".toList =
        none := by
  decide

/-- C5 (amended): for every whitespace-free URL whose literal last
slash-delimited segment is a canonical UUID `u`, the resolver returns `u`,
agreeing with resolving `u` directly; but a trailing slash defeats the
extraction (the empty trailing segment is not ignored) and resolution
fails. -/
theorem c5_last_segment_extraction (pre u : List Char) (hu : uuidTest u = true)
    (hpre : ∀ c ∈ pre, jsWhitespace c = false) :
    extractJobId (pre ++ '/' :: u) = some u ∧ extractJobId u = some u ∧
      extractJobId (pre ++ '/' :: (u ++ ['/'])) = none := by
  have hnoslash : '/' ∉ u := uuidTest_no_slash hu
  have hws : ∀ (tail : List Char), (∀ c ∈ tail, jsWhitespace c = false) →
      trimL (pre ++ '/' :: tail) = pre ++ '/' :: tail := by
    intro tail htail
    refine trimL_eq_self ?_
    intro c hc
    rcases List.mem_append.mp hc with hcp | hct
    · exact hpre c hcp
    · rcases List.mem_cons.mp hct with rfl | hcu
      · decide
      · exact htail c hcu
  have huws : ∀ c ∈ u, jsWhitespace c = false := uuidTest_no_ws hu
  refine ⟨?_, extractJobId_of_uuidTest hu, ?_⟩
  · have hfalse : uuidTest (pre ++ '/' :: u) = false :=
      uuidTest_false_of_slash_mem (List.mem_append_right pre (List.mem_cons_self '/' u))
    simp only [extractJobId, hws u huws, hfalse, Bool.false_eq_true, if_false]
    rw [splitOnChar_append, splitOnChar_of_not_mem '/' u hnoslash,
      getLastD_append_of_ne_nil _ (by simp) []]
    show (if uuidTest u = true then some u else none) = some u
    rw [if_pos hu]
  · have htailws : ∀ c ∈ u ++ ['/'], jsWhitespace c = false := by
      intro c hc
      rcases List.mem_append.mp hc with hcu | hcs
      · exact huws c hcu
      · rcases List.mem_cons.mp hcs with rfl | h0
        · decide
        · simp at h0
    have hfalse : uuidTest (pre ++ '/' :: (u ++ ['/'])) = false :=
      uuidTest_false_of_slash_mem
        (List.mem_append_right pre (List.mem_cons_self '/' (u ++ ['/'])))
    simp only [extractJobId, hws (u ++ ['/']) htailws, hfalse, Bool.false_eq_true, if_false]
    rw [splitOnChar_append, splitOnChar_append '/' u [],
      splitOnChar_of_not_mem '/' u hnoslash,
      ← List.append_assoc,
      getLastD_append_of_ne_nil _ (by simp [splitOnChar]) []]
    simp [splitOnChar, uuidTest]

/-- Witness for the amended C5 at a concrete URL. -/
theorem c5_last_segment_extraction_witness :
    extractJobId ("https://app.reworkd.ai".toList ++ '/' ::
        "123e4567-e89b-12d3-a456-426614174000".toList) =
      some "123e4567-e89b-12d3-a456-426614174000".toList ∧
      extractJobId "123e4567-e89b-12d3-a456-426614174000".toList =
        some "123e4567-e89b-12d3-a456-426614174000".toList ∧
      extractJobId ("https://app.reworkd.ai".toList ++ '/' ::
          ("123e4567-e89b-12d3-a456-426614174000".toList ++ ['/'])) = none :=
  c5_last_segment_extraction "https://app.reworkd.ai".toList
    "123e4567-e89b-12d3-a456-426614174000".toList (by decide) (by decide)

/-- Model of the platform URL parser (`new URL(...)`), an external
collaborator of this code: a string of the shape `scheme://host[/...]`
parses, with a non-empty ASCII-letter scheme and a non-empty authority;
`.hostname` is the authority lower-cased. A string without `://` after a
letter scheme is rejected (`new URL` throws). -/
def parseHostname (s : List Char) : Option (List Char) :=
  let scheme := s.takeWhile isAsciiAlpha
  let rest := s.dropWhile isAsciiAlpha
  if scheme.isEmpty then none
  else
    match rest with
    | ':' :: '/' :: '/' :: r =>
      let auth := r.takeWhile (fun c => c ≠ '/' && c ≠ '?' && c ≠ '#')
      if auth.isEmpty then none else some (auth.map lowerChar)
    | _ => none

/-- `extractDomain` from the dashboard source (used for the cache's domain
tag): on success, strip the first `www.`, split on `.`, take the first
label and upper-case it; on a parse failure return `'UNKNOWN'`. -/
def extractDomain (url : List Char) : List Char :=
  match parseHostname url with
  | some domain =>
    ((splitOnChar '.' (stripFirst "www.".toList domain)).headD []).map upperChar
  | none => "UNKNOWN".toList

/-- `extractDomainForSearch` from the dashboard source (used by the search
box): on success, the hostname with the first `www.` stripped; on a parse
failure, the input string itself. -/
def extractDomainForSearch (url : List Char) : List Char :=
  match parseHostname url with
  | some hostname => stripFirst "www.".toList hostname
  | none => url

/-- Counterexample to C7: the cache's extractor returns `'SHOP'`, not
`'shop.example.com'`; the search extractor returns the raw input, not
`'UNKNOWN'`, on unparseable input; and the two call sites disagree on the
same URL, so there is no single shared implementation. -/
theorem c7_counterexample :
    extractDomain "https://www.Shop.example.com/p".toList ≠ "shop.example.com".toList ∧
      extractDomain "https://www.Shop.example.com/p".toList = "SHOP".toList ∧
      extractDomainForSearch "not a url".toList ≠ "UNKNOWN".toList ∧
      extractDomainForSearch "not a url".toList = "not a url".toList ∧
      extractDomain "https://www.Shop.example.com/p".toList ≠
        extractDomainForSearch "https://www.Shop.example.com/p".toList := by
  decide

/-- C7 (amended): there are two distinct domain extractors, both total.
The search one returns the hostname with the first `www.` stripped; the
cache one returns the upper-cased first dot-label of that same string; on
unparseable input the cache one returns `'UNKNOWN'` while the search one
returns the input itself. -/
theorem c7_two_domain_extractors (url host : List Char)
    (hp : parseHostname url = some host) :
    extractDomainForSearch url = stripFirst "www.".toList host ∧
      extractDomain url =
        ((splitOnChar '.' (extractDomainForSearch url)).headD []).map upperChar ∧
      extractDomain "not a url".toList = "UNKNOWN".toList ∧
      extractDomainForSearch "not a url".toList = "not a url".toList := by
  refine ⟨?_, ?_, by decide, by decide⟩
  · unfold extractDomainForSearch
    rw [hp]
  · unfold extractDomain extractDomainForSearch
    rw [hp]

/-- Witness for the amended C7 at the spec's example URL. -/
theorem c7_two_domain_extractors_witness :
    extractDomainForSearch "https://www.Shop.example.com/p".toList =
        stripFirst "www.".toList "www.shop.example.com".toList ∧
      extractDomain "https://www.Shop.example.com/p".toList =
        ((splitOnChar '.'
            (extractDomainForSearch "https://www.Shop.example.com/p".toList)).headD
          []).map upperChar ∧
      extractDomain "not a url".toList = "UNKNOWN".toList ∧
      extractDomainForSearch "not a url".toList = "not a url".toList :=
  c7_two_domain_extractors "https://www.Shop.example.com/p".toList
    "www.shop.example.com".toList (by decide)

/-- `JobEntry` from the dashboard source: the static reference data used
only by the domain search. -/
structure JobEntry where
  id : List Char
  site : List Char
  deriving DecidableEq, Repr

/-- The search branch of `handleInputChange` from the dashboard source:
when the input starts with `@`, lower-case the rest; a non-empty term
filters the static entries by substring match of the term against the
lower-cased `extractDomainForSearch` of the entry's site, truncated to 10
results; an empty term (or no `@`) yields no results. -/
def searchResults (jobEntries : List JobEntry) (value : List Char) : List JobEntry :=
  if startsWithL ['@'] value then
    let searchTerm := (value.drop 1).map lowerChar
    if 0 < searchTerm.length then
      (jobEntries.filter (fun entry =>
        containsSub ((extractDomainForSearch entry.site).map lowerChar) searchTerm)).take 10
    else []
  else []

/-- The spec's description of a search match, stated from the spec's words
for comparison with the code's filter: the query occurs case-insensitively
in the entry's site hostname with a leading `www.` stripped (the hostname
is supplied explicitly). -/
def specSiteMatch (host query : List Char) : Bool :=
  containsSub ((stripFirst "www.".toList host).map lowerChar) (query.map lowerChar)

/-- C8: for entries with parseable sites, searching `@q` returns exactly
the first at-most-10 entries, in input order, whose www-stripped hostname
contains `q` case-insensitively; the result is always an ordered
sub-sequence of the input of length at most 10; the empty query returns
nothing. -/
theorem c8_search_behavior (entries : List JobEntry) (q : List Char)
    (host : JobEntry → List Char)
    (hhost : ∀ e ∈ entries, parseHostname e.site = some (host e)) :
    (q ≠ [] →
        searchResults entries ('@' :: q) =
          (entries.filter (fun e => specSiteMatch (host e) q)).take 10) ∧
      List.Sublist (searchResults entries ('@' :: q)) entries ∧
      (searchResults entries ('@' :: q)).length ≤ 10 ∧
      searchResults entries ['@'] = [] := by
  have hstart : startsWithL ['@'] ('@' :: q) = true := by simp [startsWithL]
  have hfilter :
      entries.filter (fun entry =>
          containsSub ((extractDomainForSearch entry.site).map lowerChar)
            (q.map lowerChar)) =
        entries.filter (fun e => specSiteMatch (host e) q) := by
    refine List.filter_congr ?_
    intro e he
    unfold specSiteMatch
    unfold extractDomainForSearch
    rw [hhost e he]
  have hmain : ∀ hq : q ≠ [],
      searchResults entries ('@' :: q) =
        (entries.filter (fun e => specSiteMatch (host e) q)).take 10 := by
    intro hq
    unfold searchResults
    rw [if_pos hstart]
    simp only [List.drop_one, List.tail_cons]
    rw [if_pos (by simpa [List.length_map, List.length_pos] using hq), hfilter]
  refine ⟨hmain, ?_, ?_, ?_⟩
  · by_cases hq : q = []
    · subst hq
      simp [searchResults, startsWithL]
    · rw [hmain hq]
      exact (List.take_sublist _ _).trans (List.filter_sublist entries)
  · by_cases hq : q = []
    · subst hq
      simp [searchResults, startsWithL]
    · rw [hmain hq, List.length_take]
      exact min_le_left _ _
  · simp [searchResults, startsWithL]

/-- Witness for C8 on the spec's example entry and query. -/
theorem c8_search_behavior_witness :
    searchResults [⟨"a".toList, "https://www.Foo.com/x".toList⟩] ('@' :: "foo".toList) =
      [⟨"a".toList, "https://www.Foo.com/x".toList⟩] := by
  have h := (c8_search_behavior [⟨"a".toList, "https://www.Foo.com/x".toList⟩]
      "foo".toList (fun _ => "www.foo.com".toList) (by decide)).1 (by decide)
  rw [h]
  decide

/-- The `localStorage.getItem(key) || '[]'` idiom: a missing key (`null`)
or an empty string falls back to the literal `'[]'`. -/
def storedOrEmptyArray (stored : Option (List Char)) : List Char :=
  match stored with
  | none => "[]".toList
  | some s => if s.isEmpty then "[]".toList else s

/-- `getCachedJobs` from the dashboard source: JSON-parse the snapshot and
return `[]` when parsing throws (the `try`/`catch` swallows the error).
The platform JSON parser is a parameter. -/
def getCachedJobs {π : Type} (parse : List Char → Option (List (CachedJob π)))
    (stored : Option (List Char)) : List (CachedJob π) :=
  match parse (storedOrEmptyArray stored) with
  | some jobs => jobs
  | none => []

/-- The history entries persisted under `validatedJobIds`. -/
structure HistoryEntry where
  id : List Char
  timestamp : List Char
  domain : List Char
  deriving DecidableEq, Repr

/-- The browse page's history load from its `useEffect`
(`JSON.parse(localStorage.getItem('validatedJobIds') || '[]')`): there is
no surrounding `try`/`catch`, so a parse failure is an uncaught exception,
modelled as `none`. -/
def loadHistory (parse : List Char → Option (List HistoryEntry))
    (stored : Option (List Char)) : Option (List HistoryEntry) :=
  parse (storedOrEmptyArray stored)

/-- Counterexample to C6: with a JSON parser that rejects the corrupt
snapshot `'garbage'`, the cache load fails open to `[]`, but the history
load propagates the parse error instead of yielding the empty list. -/
theorem c6_counterexample :
    getCachedJobs (π := Unit) (fun s => if s = "[]".toList then some [] else none)
        (some "garbage".toList) = [] ∧
      loadHistory (fun s => if s = "[]".toList then some [] else none)
        (some "garbage".toList) = none ∧
      loadHistory (fun s => if s = "[]".toList then some [] else none)
        (some "garbage".toList) ≠ some [] := by
  decide

/-- C6 (amended): on an unparseable persisted snapshot the cache load
yields the empty list without propagating the parse error, but the browse
page's history load has no catch and propagates the error. -/
theorem c6_corrupt_storage_split {π : Type}
    (parseCache : List Char → Option (List (CachedJob π)))
    (parseHist : List Char → Option (List HistoryEntry)) (stored : List Char)
    (hne : stored.isEmpty = false) (hc : parseCache stored = none)
    (hh : parseHist stored = none) :
    getCachedJobs parseCache (some stored) = [] ∧
      loadHistory parseHist (some stored) = none := by
  have hraw : storedOrEmptyArray (some stored) = stored := by
    show (if stored.isEmpty = true then "[]".toList else stored) = stored
    rw [hne]
    rfl
  constructor
  · unfold getCachedJobs
    rw [hraw, hc]
  · unfold loadHistory
    rw [hraw, hh]

/-- Witness for the amended C6 with a concrete rejecting parser. -/
theorem c6_corrupt_storage_split_witness :
    getCachedJobs (π := Unit) (fun _ => none) (some "garbage".toList) = [] ∧
      loadHistory (fun _ => none) (some "garbage".toList) = none :=
  c6_corrupt_storage_split (fun _ => none) (fun _ => none) "garbage".toList
    (by decide) rfl rfl

/-- Upstream response as seen by the proxy route: HTTP status, status
text, and the result of `response.json()` (`Except.error` when the body is
not JSON, which the route's `catch` turns into a 500). -/
structure UpstreamResponse (α : Type) where
  status : Nat
  statusText : List Char
  json : Except Unit α

/-- `response.ok` per fetch semantics: status in the 2xx range. -/
def UpstreamResponse.ok {α : Type} (r : UpstreamResponse α) : Bool :=
  decide (200 ≤ r.status) && decide (r.status ≤ 299)

/-- The route's fallback endpoint for `searchParams.get('endpoint') || default`. -/
def DEFAULT_ENDPOINT : List Char := "https://yaysay-validator.onrender.com/validate/".toList

/-- The endpoint actually used: the `endpoint` query parameter unless it
is missing or empty. -/
def resolveEndpoint (endpointParam : Option (List Char)) : List Char :=
  match endpointParam with
  | none => DEFAULT_ENDPOINT
  | some e => if e.isEmpty then DEFAULT_ENDPOINT else e

/-- A response body produced by the route: either a `{ error: ... }` JSON
object or the upstream payload passed through. -/
inductive ProxyBody (α : Type) where
  | errObj : List Char → ProxyBody α
  | payload : α → ProxyBody α
  deriving DecidableEq

/-- A response from the route: status code and body. -/
structure ProxyResponse (α : Type) where
  status : Nat
  body : ProxyBody α
  deriving DecidableEq

/-- The interpolated message `` `External API error: ${status} ${statusText}` ``. -/
def apiErrorMsg (status : Nat) (statusText : List Char) : List Char :=
  "External API error: ".toList ++ Nat.toDigits 10 status ++ ' ' :: statusText

/-- The proxy route's `GET` handler from the API route source: endpoint
from the query parameter (default when missing/empty); 400 on a non-UUID
jobId; otherwise fetch `<endpoint><jobId>`; a non-2xx upstream becomes the
upstream status with an `External API error` body; a throwing fetch or a
non-JSON body reaches the `catch` and becomes a 500. The network `fetch`
collaborator is a parameter. -/
def routeGET {α : Type} (fetch : List Char → Except Unit (UpstreamResponse α))
    (endpointParam : Option (List Char)) (jobId : List Char) : ProxyResponse α :=
  if !uuidTest jobId then ⟨400, ProxyBody.errObj "Invalid job ID format".toList⟩
  else
    match fetch (resolveEndpoint endpointParam ++ jobId) with
    | Except.error _ => ⟨500, ProxyBody.errObj "Internal server error".toList⟩
    | Except.ok resp =>
      if !resp.ok then
        ⟨resp.status, ProxyBody.errObj (apiErrorMsg resp.status resp.statusText)⟩
      else
        match resp.json with
        | Except.error _ => ⟨500, ProxyBody.errObj "Internal server error".toList⟩
        | Except.ok data => ⟨200, ProxyBody.payload data⟩

/-- Counterexample to C9: on a non-2xx upstream response the route passes
the status through but replaces the body with its own error object rather
than forwarding the upstream body verbatim. -/
theorem c9_counterexample :
    (routeGET (α := Nat) (fun _ => Except.ok ⟨404, "Not Found".toList, Except.ok 7⟩)
        none "123e4567-e89b-12d3-a456-426614174000".toList).status = 404 ∧
      (routeGET (α := Nat) (fun _ => Except.ok ⟨404, "Not Found".toList, Except.ok 7⟩)
          none "123e4567-e89b-12d3-a456-426614174000".toList).body ≠
        ProxyBody.payload 7 := by
  decide

/-- C9 (amended): the route rejects a non-UUID jobId with a 400, forwards
to `<endpoint><jobId>`, passes through a non-2xx upstream status but with
a synthesized `External API error` body (not the upstream body verbatim),
returns the payload with a 200 on success, and a generic 500 when the
forward throws. -/
theorem c9_route_behavior {α : Type}
    (fetch : List Char → Except Unit (UpstreamResponse α))
    (ep : Option (List Char)) (jobId : List Char) (resp : UpstreamResponse α) :
    (uuidTest jobId = false →
        routeGET fetch ep jobId = ⟨400, ProxyBody.errObj "Invalid job ID format".toList⟩) ∧
      (uuidTest jobId = true →
          fetch (resolveEndpoint ep ++ jobId) = Except.error () →
          routeGET fetch ep jobId = ⟨500, ProxyBody.errObj "Internal server error".toList⟩) ∧
      (uuidTest jobId = true → fetch (resolveEndpoint ep ++ jobId) = Except.ok resp →
          resp.ok = false →
          routeGET fetch ep jobId =
            ⟨resp.status, ProxyBody.errObj (apiErrorMsg resp.status resp.statusText)⟩) ∧
      (uuidTest jobId = true → fetch (resolveEndpoint ep ++ jobId) = Except.ok resp →
          resp.ok = true → ∀ d : α, resp.json = Except.ok d →
          routeGET fetch ep jobId = ⟨200, ProxyBody.payload d⟩) := by
  refine ⟨?_, ?_, ?_, ?_⟩
  · intro hu
    unfold routeGET
    rw [hu]
    rfl
  · intro hu hf
    unfold routeGET
    rw [hu, hf]
    rfl
  · intro hu hf hok
    unfold routeGET
    rw [hu, hf]
    simp [hok]
  · intro hu hf hok d hj
    unfold routeGET
    rw [hu, hf]
    simp [hok, hj]

/-- Witness for the amended C9: a 503 upstream keeps its status but gets
the synthesized error body. -/
theorem c9_route_behavior_witness :
    routeGET (α := Nat) (fun _ => Except.ok ⟨503, "Service Unavailable".toList, Except.ok 1⟩)
        none "123e4567-e89b-12d3-a456-426614174000".toList =
      ⟨503, ProxyBody.errObj (apiErrorMsg 503 "Service Unavailable".toList)⟩ :=
  (c9_route_behavior
      (fun _ => Except.ok ⟨503, "Service Unavailable".toList, Except.ok 1⟩) none
      "123e4567-e89b-12d3-a456-426614174000".toList
      ⟨503, "Service Unavailable".toList, Except.ok 1⟩).2.2.1 (by decide) rfl (by decide)

end Preworkd
